import Mathlib

/-!
Shallow embedding of the `em_persistent_state` storage engine
(`src/include/em_persistent_state.h`, `src/src/em_persistent_state.cpp`).

The device (EEPROM) is a list of bytes; `ps_address_t` and `ps_size_t` are
`uint16_t`, so every `(ps_address_t)` cast in the source becomes an explicit
`% 65536`.  Comparisons such as `index + size < m_endIndex` are performed in
C++ after integer promotion (no wraparound), hence they are plain `Nat`
comparisons here.  Fallible operations return `Option` (with `none` standing
for the C++ failure sentinel `false` / `-1`).  We model the `EM_EEPROM`
(AVR) build, in which `updateByte_`/`updateBytes_` return `true` after the
compare-then-write loop.  Loops over the device carry an explicit fuel
argument; the C++ loops have no such bound, and every theorem below either
quantifies over the fuel or uses a fuel large enough for the concrete device
at hand.
-/

namespace EmPS

/-- The `(ps_address_t)` (i.e. `uint16_t`) cast used by the source. -/
def addr (a : Nat) : Nat := a % 65536

/-- The cast `(ps_address_t)(a - b)` for small `b` (used by
`EmPersistentState::find` as `index - EmPersistentId::c_MaxLen -
(ps_address_t)sizeof(ps_size_t)`); the subtraction happens on promoted
`int`s and the result is truncated back to 16 bits. -/
def subWrap (a b : Nat) : Nat := (a + 65536 - b) % 65536

/-- `EmPersistentId::c_MaxLen`. -/
def c_MaxLen : Nat := 3

/-- `EmPersistentState::c_MinSize`. -/
def c_MinSize : Nat := 12

/-- `EmPersistentState::c_HeaderId = "#>!"` (bytes 35, 62, 33). -/
def c_HeaderId : List Nat := [35, 62, 33]

/-- `EmPersistentState::c_FooterId = "#<!"` (bytes 35, 60, 33). -/
def c_FooterId : List Nat := [35, 60, 33]

/-- The engine state: the EEPROM contents plus the fields
`m_beginIndex`, `m_endIndex`, `m_nextPvAddress` of `EmPersistentState`. -/
structure PState where
  device : List Nat
  beginIndex : Nat
  endIndex : Nat
  nextPvAddress : Nat
deriving DecidableEq, Repr

/-- An `EmPersistentValueBase`: id (`m_id`, 3 bytes), `m_address`,
`m_bufferSize` and the in-memory buffer `m_pValue`. -/
structure PValue where
  id : List Nat
  address : Nat
  bufferSize : Nat
  buffer : List Nat
deriving DecidableEq, Repr

/-- `EmPersistentState::indexCheck_`:
`index >= m_beginIndex && (index+size) < m_endIndex` (the additions are
`int`-promoted in C++, so there is no 16-bit wraparound here). -/
def indexCheck (ps : PState) (index size : Nat) : Bool :=
  decide (ps.beginIndex ≤ index ∧ index + size < ps.endIndex)

/-- `EmPersistentState::readByte_`: returns 0 on a failed bounds check. -/
def readByte (ps : PState) (index : Nat) : Nat :=
  if indexCheck ps index 1 then ps.device.getD index 0 else 0

/-- `EmPersistentState::readBytes_`. -/
def readBytes (ps : PState) (index size : Nat) : Option (List Nat) :=
  if indexCheck ps index size then
    some ((List.range size).map (fun i => ps.device.getD (index + i) 0))
  else none

/-- The compare-then-write loop of `EmPersistentState::updateBytes_`:
returns the updated device and the number of physical `EEPROM.write` calls
issued. -/
def updBytesAux : List Nat → Nat → Nat → List Nat → List Nat × Nat
  | d, _, n, [] => (d, n)
  | d, i, n, b :: rest =>
    if b = d.getD i 0 then updBytesAux d (i + 1) n rest
    else updBytesAux (d.set i b) (i + 1) (n + 1) rest

/-- `EmPersistentState::updateBytes_` (EM_EEPROM build): bounds check, then
per-byte compare-then-write.  Returns (state, success, physical writes). -/
def updateBytes (ps : PState) (index : Nat) (bytes : List Nat) :
    PState × Bool × Nat :=
  if indexCheck ps index bytes.length then
    let r := updBytesAux ps.device index 0 bytes
    ({ps with device := r.1}, true, r.2)
  else (ps, false, 0)

/-- `EmPersistentState::updateByte_` (EM_EEPROM build). -/
def updateByte (ps : PState) (index : Nat) (b : Nat) : PState × Bool :=
  if indexCheck ps index 1 then
    if b = ps.device.getD index 0 then (ps, true)
    else ({ps with device := ps.device.set index b}, true)
  else (ps, false)

/-- The `m_bufferSize` bytes of a value buffer, as seen by the `memcpy` /
`memcmp` calls of the source (which always read exactly `m_bufferSize`
bytes from the buffer). -/
def mem (l : List Nat) (n : Nat) : List Nat :=
  (List.range n).map (fun i => l.getD i 0)

/-- Specification-side count of the offsets at which the bytes to be
written differ from the bytes currently stored (starting at device
position `i`). -/
def countDiff (d : List Nat) : Nat → List Nat → Nat
  | _, [] => 0
  | i, b :: rest => (if b = d.getD i 0 then 0 else 1) + countDiff d (i + 1) rest

/-- `sizeof(ps_size_t) = 2` bytes of a size field, little-endian (AVR/ESP
memory order, as written by `updateBytes_(sizeAddress_(), &m_bufferSize, 2)`). -/
def sizeBytes (n : Nat) : List Nat := [n % 256, n / 256 % 256]

/-- Decode a 2-byte size field. -/
def decodeSize (sz : List Nat) : Nat := sz.getD 0 0 + 256 * sz.getD 1 0

/-- `EmPersistentState::readNext_`: read an id at `index`; fail on read
failure or on the footer; otherwise read the 2-byte size and return the
advanced index (positioned at the value bytes), the id and the size. -/
def readNext (ps : PState) (index : Nat) : Option (Nat × List Nat × Nat) :=
  match readBytes ps index 3 with
  | none => none
  | some id =>
    if id = c_FooterId then none
    else
      match readBytes ps (addr (index + 3)) 2 with
      | none => none
      | some sz => some (addr (addr (index + 3) + 2), id, decodeSize sz)

/-- The scan loop shared by `begin()` and `count()`:
`while (readNext_(index, id, size)) { index += size; count++; }`.
Returns the stop address and the record count. -/
def scanAux (ps : PState) : Nat → Nat → Nat → Nat × Nat
  | 0, index, cnt => (index, cnt)
  | fuel + 1, index, cnt =>
    match readNext ps index with
    | none => (index, cnt)
    | some (index2, _, sz) => scanAux ps fuel (addr (index2 + sz)) (cnt + 1)

/-- The tail of `EmPersistentState::begin()` after the header is known to be
in place: scan, set `m_nextPvAddress` to the stop address, return the count. -/
def finishBegin (fuel : Nat) (ps : PState) : PState × Option Nat :=
  let s := scanAux ps fuel (addr (ps.beginIndex + 3)) 0
  ({ps with nextPvAddress := s.1}, some s.2)

/-- `EmPersistentState::begin()` (the bare initializer).  It first resets
`m_nextPvAddress` to 0, reads the 3 bytes at `m_beginIndex`, writes the
header and footer if the header is absent, then scans.  `none` models the
`-1` failure return. -/
def beginBare (fuel : Nat) (ps0 : PState) : PState × Option Nat :=
  let ps : PState := {ps0 with nextPvAddress := 0}
  match readBytes ps ps.beginIndex 3 with
  | none => (ps, none)
  | some id =>
    if id = c_HeaderId then finishBegin fuel ps
    else
      let r1 := updateBytes ps ps.beginIndex c_HeaderId
      if r1.2.1 then
        let r2 := updateBytes r1.1 (addr (r1.1.beginIndex + 3)) c_FooterId
        if r2.2.1 then finishBegin fuel r2.1 else (r2.1, none)
      else (r1.1, none)

/-- `EmPersistentState::findMatch_`: the loop tests the match predicate
(`id` and `size` equality, `EmPersistentValueBase::match_`) against the
current `psId`/`psSize` pair before each read; initially that pair is the
default-constructed id (all zero bytes) and size 0. -/
def findMatch (ps : PState) (tid : List Nat) (tsz : Nat) :
    Nat → Nat → List Nat → Nat → Option Nat
  | 0, _, _, _ => none
  | fuel + 1, index, psId, psSize =>
    if tid = psId ∧ tsz = psSize then some index
    else
      match readNext ps (addr (index + psSize)) with
      | none => none
      | some (index2, id2, sz2) => findMatch ps tid tsz fuel index2 id2 sz2

/-- `EmPersistentState::find`: initialization check, scan for a matching
id/size, set `value.m_address = index - 3 - 2` (16-bit truncated), then
read the record's value bytes into the value buffer. -/
def find (fuel : Nat) (ps : PState) (v : PValue) : Bool × PValue :=
  if ps.nextPvAddress = 0 then (false, v)
  else
    match findMatch ps v.id v.bufferSize fuel (addr (ps.beginIndex + 3)) [0, 0, 0] 0 with
    | none => (false, v)
    | some index =>
      let v1 : PValue := {v with address := subWrap index 5}
      match readBytes ps index v.bufferSize with
      | none => (false, v1)
      | some bytes => (true, {v1 with buffer := bytes ++ v1.buffer.drop bytes.length})

/-- `EmPersistentValueBase::updateValue_`: fails when the value is not
stored (`m_address == 0`), else writes the `m_bufferSize` buffer bytes at
`valueAddress_() = m_address + 3 + 2`. -/
def updateValuePS (ps : PState) (v : PValue) : PState × Bool × Nat :=
  if v.address = 0 then (ps, false, 0)
  else updateBytes ps (addr (v.address + 3 + 2)) (mem v.buffer v.bufferSize)

/-- `EmPersistentValue<T>::setValue`: skip everything if the new bytes
compare equal (`memcmp` over `m_bufferSize`), else `setMem_` then
`updateValue_`.  Returns (state, value, result, physical writes). -/
def setValue (ps : PState) (v : PValue) (bytes : List Nat) :
    PState × PValue × Bool × Nat :=
  if mem v.buffer v.bufferSize = mem bytes v.bufferSize then (ps, v, true, 0)
  else
    let v1 : PValue := {v with buffer := mem bytes v.bufferSize ++ v.buffer.drop v.bufferSize}
    let r := updateValuePS ps v1
    (r.1, v1, r.2.1, r.2.2)

/-- `EmPersistentValueBase::store_`: write the id, then the 2-byte size,
then the value bytes (via `updateValue_`, which checks `isStored()`);
short-circuit on the first failure. -/
def storeRecord (ps : PState) (v : PValue) : PState × Bool :=
  let r1 := updateBytes ps v.address (mem v.id 3)
  if r1.2.1 then
    let r2 := updateBytes r1.1 (addr (v.address + 3)) (sizeBytes v.bufferSize)
    if r2.2.1 then
      if v.address = 0 then (r2.1, false)
      else
        let r3 := updateBytes r2.1 (addr (v.address + 3 + 2)) (mem v.buffer v.bufferSize)
        (r3.1, r3.2.1)
    else (r2.1, false)
  else (r1.1, false)

/-- `EmPersistentState::appendValue_`: place the value at
`m_nextPvAddress`, store it and relocate the footer; on success advance
`m_nextPvAddress`, on failure reset the value's address to 0. -/
def appendValue (ps : PState) (v : PValue) : PState × PValue × Bool :=
  let v1 : PValue := {v with address := ps.nextPvAddress}
  let r := storeRecord ps v1
  if r.2 then
    let nxt := addr (v1.address + 3 + 2 + v1.bufferSize)
    let r2 := updateBytes r.1 nxt c_FooterId
    if r2.2.1 then ({r2.1 with nextPvAddress := nxt}, v1, true)
    else (r2.1, {v1 with address := 0}, false)
  else (r.1, {v1 with address := 0}, false)

/-- `EmPersistentState::add`. -/
def add (fuel : Nat) (ps : PState) (v : PValue) : PState × PValue × Bool :=
  if ps.nextPvAddress = 0 then (ps, v, false)
  else
    let r := find fuel ps v
    if r.1 then (ps, r.2, true)
    else appendValue ps r.2

/-- `EmPersistentState::clear`: note that, unlike the query entry points,
it performs no initialization check. -/
def clear (ps : PState) : PState × Bool :=
  let r1 := updateBytes ps ps.beginIndex c_HeaderId
  if r1.2.1 then
    let r2 := updateBytes r1.1 (addr (ps.beginIndex + 3)) c_FooterId
    if r2.2.1 then ({r2.1 with nextPvAddress := addr (ps.beginIndex + 3)}, true)
    else (r2.1, false)
  else (r1.1, false)

/-- `EmPersistentState::count`: fails (`-1`, i.e. `none`) when not
initialized, else re-runs the scan without touching `m_nextPvAddress`. -/
def count (fuel : Nat) (ps : PState) : Option Nat :=
  if ps.nextPvAddress = 0 then none
  else some (scanAux ps fuel (addr (ps.beginIndex + 3)) 0).2

/-- `EmPersistentState::createNext_`: decode one record (id, size, value
bytes) at `index`; `none` on the footer or on any read failure. -/
def createNext (ps : PState) (index : Nat) : Option (Nat × PValue) :=
  match readBytes ps index 3 with
  | none => none
  | some id =>
    if id = c_FooterId then none
    else
      match readBytes ps (addr (index + 3)) 2 with
      | none => none
      | some sz =>
        let size := decodeSize sz
        let vIdx := addr (addr (index + 3) + 2)
        match readBytes ps vIdx size with
        | none => none
        | some value => some (addr (vIdx + size), ⟨id, index, size, value⟩)

/-- The decode loop of `EmPersistentState::load`. -/
def loadAux (ps : PState) : Nat → Nat → List PValue → List PValue
  | 0, _, acc => acc
  | fuel + 1, index, acc =>
    match createNext ps index with
    | none => acc
    | some (index2, v) => loadAux ps fuel index2 (acc ++ [v])

/-- `EmPersistentState::load`: fails (`-1`) when not initialized, else
decodes every record from the first record address. -/
def load (fuel : Nat) (ps : PState) : Option (List PValue) :=
  if ps.nextPvAddress = 0 then none
  else some (loadAux ps fuel (addr (ps.beginIndex + 3)) [])

/-- Modelled from the spec: the declared-value iterator (`EmPSIterator`,
defined by the external `em_list`/`em_defs` headers that are not part of
this repository) yields the declared values in order and `reset()`
restarts it; we therefore fold over a `List PValue`.  This is the
`while (it.next(pItem)) if (find(*pItem)) foundItems++;` phase of
`begin(EmPSIterator&, bool)`. -/
def reconFind (fuel : Nat) (ps : PState) (values : List PValue) :
    List PValue × Nat :=
  values.foldl
    (fun acc v =>
      let r := find fuel ps v
      (acc.1 ++ [r.2], acc.2 + if r.1 then 1 else 0))
    ([], 0)

/-- The rewrite branch of `begin(EmPSIterator&, bool)`: append every
declared value (the result of `appendValue_` is not checked). -/
def appendAll (ps : PState) (values : List PValue) : PState × List PValue :=
  values.foldl
    (fun acc v =>
      let r := appendValue acc.1 v
      (r.1, acc.2 ++ [r.2.1]))
    (ps, [])

/-- `EmPersistentValueBase::isStored`: `0 != m_address`. -/
def isStored (v : PValue) : Bool := decide (v.address ≠ 0)

/-- The append-only branch of `begin(EmPSIterator&, bool)`: append only
the declared values with `isStored() == false`. -/
def appendNew (ps : PState) (values : List PValue) : PState × List PValue :=
  values.foldl
    (fun acc v =>
      if isStored v then (acc.1, acc.2 ++ [v])
      else
        let r := appendValue acc.1 v
        (r.1, acc.2 ++ [r.2.1]))
    (ps, [])

/-- `EmPersistentState::begin(EmPSIterator& it, bool removeUnusedValues)`
(the reconciling initializer).  Returns the final engine state, the
declared values as mutated by the call, and the returned count (`none`
models `-1`). -/
def beginRecon (fuel : Nat) (ps : PState) (values : List PValue)
    (removeUnused : Bool) : PState × List PValue × Option Nat :=
  let r0 := beginBare fuel ps
  match r0.2 with
  | none => (r0.1, values, none)
  | some countItems =>
    let rf := reconFind fuel r0.1 values
    let somethingToDelete : Bool := decide (rf.2 < countItems)
    if removeUnused && somethingToDelete then
      let ps2 : PState := {r0.1 with nextPvAddress := addr (r0.1.beginIndex + 3)}
      let ra := appendAll ps2 rf.1
      (ra.1, ra.2, some ra.2.length)
    else
      let ra := appendNew r0.1 rf.1
      (ra.1, ra.2, some ra.2.length)

/-- The window set-up of the `EmPersistentState` constructor
(`EM_EEPROM` build): clamp the optional `beginIndex`/`endIndex` against
the device length, then, if fewer than `c_MinSize` bytes remain, reset to
`[0, c_MinSize)`.  (The `int` subtraction `m_endIndex - m_beginIndex` is
negative exactly when `e1 < b1`, in which case the `Nat` subtraction is 0;
both trigger the reset, so `Nat` subtraction is faithful.)  Returns the
resulting `(m_beginIndex, m_endIndex)`. -/
def mkWindow (beginIdx endIdx : Option Nat) (eepromLen : Nat) : Nat × Nat :=
  let b0 := beginIdx.getD 0
  let e0 := endIdx.getD eepromLen
  let b1 := if eepromLen ≤ b0 then 0 else b0
  let e1 := if eepromLen < e0 then eepromLen else e0
  if e1 - b1 < c_MinSize then (0, c_MinSize) else (b1, e1)

/-- C `strlen`/string-content of a buffer: the bytes before the first
NUL terminator. -/
def cstr (l : List Nat) : List Nat := l.takeWhile (fun b => !decide (b = 0))

/-- `EmPersistentString::setMem_` with `valueSize_`: copy
`min(m_bufferSize - 1, strlen(s) + 1)` bytes of the C string (its
characters followed by the terminator) into the buffer; a `nullptr`
argument has `valueSize_` 0, i.e. the copy is a no-op.  `s` is the list
of the string's characters (all non-zero), without the terminator. -/
def strSetMem (buffer : List Nat) (bufferSize : Nat) (s : Option (List Nat)) :
    List Nat :=
  match s with
  | none => buffer
  | some cs =>
    let v := min (bufferSize - 1) (cs.length + 1)
    (cs ++ [0]).take v ++ buffer.drop v

/-- `EmPersistentString::equals`: against `nullptr` it tests whether the
buffer's first byte is the terminator, otherwise it is `strcmp` against
the stored string. -/
def strEquals (buffer : List Nat) (s : Option (List Nat)) : Bool :=
  match s with
  | none => buffer.getD 0 0 == 0
  | some cs => cstr buffer == cs

/-- `EmPersistentString::setValue`: skip everything when `equals` holds,
else `setMem_` then `updateValue_`. -/
def strSetValue (ps : PState) (v : PValue) (s : Option (List Nat)) :
    PState × PValue × Bool × Nat :=
  if strEquals v.buffer s then (ps, v, true, 0)
  else
    let v1 : PValue := {v with buffer := strSetMem v.buffer v.bufferSize s}
    let r := updateValuePS ps v1
    (r.1, v1, r.2.1, r.2.2)

/-! ### Concrete devices used by the scenario claims -/

/-- Record id `"AAA"`. -/
def idA : List Nat := [65, 65, 65]

/-- Record id `"BBB"`. -/
def idB : List Nat := [66, 66, 66]

/-- Record id `"CCC"`. -/
def idC : List Nat := [67, 67, 67]

/-- Record id `"DDD"`. -/
def idD : List Nat := [68, 68, 68]

/-- A device (40 bytes, window `[0, 40)`) holding the header, three
records A, B, C (each of payload size 2), and the footer at address 24. -/
def dev0 : List Nat :=
  c_HeaderId ++
  (idA ++ sizeBytes 2 ++ [1, 2]) ++
  (idB ++ sizeBytes 2 ++ [3, 4]) ++
  (idC ++ sizeBytes 2 ++ [5, 6]) ++
  c_FooterId ++ List.replicate 13 0

/-- A not-yet-initialized engine over `dev0`. -/
def ps0 : PState := ⟨dev0, 0, 40, 0⟩

/-- The same engine after a successful bare `begin()` (footer at 24). -/
def ps9 : PState := ⟨dev0, 0, 40, 24⟩

/-- Declared value matching stored record A (initial in-memory bytes
differ from the stored ones). -/
def vA0 : PValue := ⟨idA, 0, 2, [9, 9]⟩

/-- Declared value matching stored record B. -/
def vB0 : PValue := ⟨idB, 0, 2, [0, 0]⟩

/-- Declared value matching stored record C. -/
def vC0 : PValue := ⟨idC, 0, 2, [9, 9]⟩

/-- Declared value with no stored counterpart. -/
def vD0 : PValue := ⟨idD, 0, 2, [7, 8]⟩

/-- A value with an all-zero id and declared size 0. -/
def v9 : PValue := ⟨[0, 0, 0], 0, 0, []⟩

/-- A 12-byte device whose scan hits a read failure: header, record
`"AAA"` of size 1 at address 3, then no room for another id read. -/
def dev7 : List Nat := c_HeaderId ++ idA ++ [1, 0] ++ [99] ++ [0, 0, 0]

/-- A not-yet-initialized engine over `dev7`. -/
def ps7 : PState := ⟨dev7, 0, 12, 0⟩

/-- An uninitialized engine over an all-zero 12-byte device. -/
def psU : PState := ⟨List.replicate 12 0, 0, 12, 0⟩

/-- An arbitrary declared value. -/
def vAny : PValue := ⟨idA, 0, 2, [0, 0]⟩

/-- A corrupt device: header, then a record claiming payload size 100
that runs far past the window `[0, 16)`. -/
def dev10 : List Nat := c_HeaderId ++ idA ++ [100, 0] ++ List.replicate 8 0

/-- An engine over `dev10` as left by a bare `begin()` (which stops its
scan at the unreadable address 108 and returns count 1). -/
def ps10 : PState := ⟨dev10, 0, 16, 108⟩

/-- A declared value matching the corrupt record of `dev10`. -/
def v10 : PValue := ⟨idA, 0, 100, []⟩

/-- Bounded text value of `maxTextLen = 4` holding `"Bob"`. -/
def vBob : PValue := ⟨[70, 70, 70], 0, 5, [66, 111, 98, 0, 0]⟩

/-- The character bytes of `"Alexandra"`. -/
def sAlexandra : List Nat := [65, 108, 101, 120, 97, 110, 100, 114, 97]

/-! ### Helper lemmas -/

theorem getD_set_ne (l : List Nat) (i j a : Nat) (h : i ≠ j) :
    (l.set i a).getD j 0 = l.getD j 0 := by
  simp [List.getD_eq_getElem?_getD, List.getElem?_set_ne h]

theorem updAux_count (d0 bytes : List Nat) :
    ∀ (d : List Nat) (i k : Nat),
      (∀ j, i ≤ j → d.getD j 0 = d0.getD j 0) →
      (updBytesAux d i k bytes).2 = k + countDiff d0 i bytes := by
  induction bytes with
  | nil => intro d i k _; simp [updBytesAux, countDiff]
  | cons b rest ih =>
    intro d i k h
    have hd : d.getD i 0 = d0.getD i 0 := h i (Nat.le_refl i)
    by_cases hb : b = d0.getD i 0
    · have hbd : b = d.getD i 0 := by rw [hd]; exact hb
      simp only [updBytesAux, countDiff, if_pos hbd, if_pos hb]
      rw [ih d (i + 1) k (fun j hj => h j (by omega))]
      omega
    · have hbd : ¬ b = d.getD i 0 := by rw [hd]; exact hb
      simp only [updBytesAux, countDiff, if_neg hbd, if_neg hb]
      rw [ih (d.set i b) (i + 1) (k + 1)
        (fun j hj => by
          rw [getD_set_ne d i j b (by omega)]
          exact h j (by omega))]
      omega

theorem mem_length (b : List Nat) (n : Nat) : (mem b n).length = n := by
  simp [mem]

theorem mem_getD (b : List Nat) (i n : Nat) (h : i < n) :
    (mem b n).getD i 0 = b.getD i 0 := by
  simp [mem, List.getD_eq_getElem?_getD, List.getElem?_map, List.getElem?_range h]

theorem mem_append_left (b t : List Nat) (n : Nat) :
    mem (mem b n ++ t) n = mem b n := by
  have hpt : ∀ i ∈ List.range n, (mem b n ++ t).getD i 0 = b.getD i 0 := by
    intro i hi
    have hin : i < n := List.mem_range.mp hi
    rw [List.getD_append _ _ _ _ (by rw [mem_length]; exact hin)]
    exact mem_getD b i n hin
  calc mem (mem b n ++ t) n
      = (List.range n).map (fun i => b.getD i 0) := List.map_congr_left hpt
    _ = mem b n := rfl

theorem cstr_append_zero (l r : List Nat) (h : ∀ x ∈ l, x ≠ 0) :
    cstr (l ++ 0 :: r) = l := by
  induction l with
  | nil => simp [cstr]
  | cons a t ih =>
    have ha : a ≠ 0 := h a (List.mem_cons_self a t)
    have ih' := ih (fun x hx => h x (List.mem_cons_of_mem a hx))
    simp only [cstr] at ih' ⊢
    simp [List.takeWhile_cons, ha, ih']

theorem cstr_length_le (l : List Nat) (n : Nat) (h : l.getD n 0 = 0) :
    (cstr l).length ≤ n := by
  induction l generalizing n with
  | nil => simp [cstr]
  | cons a t ih =>
    cases n with
    | zero =>
      have ha : a = 0 := by simpa using h
      simp [cstr, ha]
    | succ m =>
      by_cases ha : a = 0
      · simp [cstr, ha]
      · have ht : t.getD m 0 = 0 := by simpa using h
        have := ih m ht
        simp only [cstr] at this ⊢
        simp [List.takeWhile_cons, ha]
        omega

theorem drop_eq_single (l : List Nat) (n : Nat) (h : l.length = n + 1) :
    l.drop n = [l.getD n 0] := by
  induction l generalizing n with
  | nil => simp at h
  | cons a t ih =>
    cases n with
    | zero =>
      have ht : t = [] := List.length_eq_zero.mp (by simpa using h)
      subst ht; simp
    | succ m =>
      have ht : t.length = m + 1 := by simpa using h
      simpa using ih m ht

theorem updateBytes_beginIndex (q : PState) (i : Nat) (bs : List Nat) :
    ((updateBytes q i bs).1).beginIndex = q.beginIndex := by
  unfold updateBytes
  split <;> rfl

end EmPS

open EmPS

/-! ### Claim theorems -/

/-- C3 (counterexample): `clear` called on an engine that was never
initialized (`m_nextPvAddress = 0`) does not fail with its sentinel: it
returns `true`, writes the header/footer to the device, and leaves the
engine initialized — contradicting the claim that every entry point other
than `begin` (clear included) fails immediately without modifying the
device or the engine state. -/
theorem C3_clear_counterexample :
    psU.nextPvAddress = 0 ∧
    (clear psU).2 = true ∧
    (clear psU).1.device ≠ psU.device ∧
    (clear psU).1.nextPvAddress = 3 := by decide

/-- C3 (amended): `find`, `add`, `count` and `load` fail immediately with
their error sentinel (`false` / `-1`, i.e. `none`) when called before a
successful initialization, without modifying the device, the engine state
or the value; `clear`, however, performs no initialization check. -/
theorem C3_uninit_entry_points (fuel : Nat) (ps : PState) (v : PValue)
    (h : ps.nextPvAddress = 0) :
    find fuel ps v = (false, v) ∧
    add fuel ps v = (ps, v, false) ∧
    count fuel ps = none ∧
    load fuel ps = none := by
  simp [find, add, count, load, h]

/-- C3 witness: the amended theorem applied to the uninitialized engine
`psU`. -/
theorem C3_uninit_entry_points_witness :
    psU.nextPvAddress = 0 ∧
    (find 5 psU vAny = (false, vAny) ∧
     add 5 psU vAny = (psU, vAny, false) ∧
     count 5 psU = none ∧
     load 5 psU = none) :=
  ⟨by decide, C3_uninit_entry_points 5 psU vAny (by decide)⟩

/-- C4 (counterexample): an access whose end equals `endIndex` exactly —
here `index = 9`, `size = 3` against the window `[0, 12)` — satisfies the
claim's condition `beginIndex ≤ index ∧ index + size ≤ endIndex`, yet the
code's bounds check fails (it requires `index + size < endIndex`) and
`readBytes_` fails. -/
theorem C4_bounds_counterexample :
    indexCheck psU 9 3 = false ∧
    psU.beginIndex ≤ 9 ∧ 9 + 3 ≤ psU.endIndex ∧
    readBytes psU 9 3 = none := by decide

/-- C4 (amended): the device access primitives pass their bounds check
iff `beginIndex ≤ index` and `index + size < endIndex` (strictly: an
access whose end equals `endIndex` exactly fails); every out-of-range
request fails — `readBytes_`/`updateBytes_` return their failure value,
`readByte_` returns 0 — without touching the device. -/
theorem C4_bounds_check (ps : PState) (index size b : Nat) (bytes : List Nat)
    (hlen : bytes.length = size) :
    (indexCheck ps index size = true ↔
       ps.beginIndex ≤ index ∧ index + size < ps.endIndex) ∧
    (indexCheck ps index size = false →
       readBytes ps index size = none ∧
       updateBytes ps index bytes = (ps, false, 0)) ∧
    (indexCheck ps index 1 = false →
       readByte ps index = 0 ∧
       updateByte ps index b = (ps, false)) := by
  subst hlen
  refine ⟨by simp [indexCheck], fun h => ⟨by simp [readBytes, h], by simp [updateBytes, h]⟩,
    fun h => ⟨by simp [readByte, h], by simp [updateByte, h]⟩⟩

/-- C4 witness: the amended theorem applied to a window `[5, 10)` with a
request at index 0 of size 3, which is out of range. -/
theorem C4_bounds_check_witness :
    ([9, 9, 9] : List Nat).length = 3 ∧
    ((indexCheck ⟨[], 5, 10, 0⟩ 0 3 = true ↔
        (⟨[], 5, 10, 0⟩ : PState).beginIndex ≤ 0 ∧
        0 + 3 < (⟨[], 5, 10, 0⟩ : PState).endIndex) ∧
     (indexCheck ⟨[], 5, 10, 0⟩ 0 3 = false →
        readBytes ⟨[], 5, 10, 0⟩ 0 3 = none ∧
        updateBytes ⟨[], 5, 10, 0⟩ 0 [9, 9, 9] = (⟨[], 5, 10, 0⟩, false, 0)) ∧
     (indexCheck ⟨[], 5, 10, 0⟩ 0 1 = false →
        readByte ⟨[], 5, 10, 0⟩ 0 = 0 ∧
        updateByte ⟨[], 5, 10, 0⟩ 0 7 = (⟨[], 5, 10, 0⟩, false))) :=
  ⟨by decide, C4_bounds_check ⟨[], 5, 10, 0⟩ 0 3 7 [9, 9, 9] (by decide)⟩

/-- C9: on an initialized store, `find` on a value whose id is all zero
bytes and whose declared size is 0 matches immediately (for every fuel,
i.e. before any record is read, because the loop tests the match
predicate against the default all-zero/size-0 pair first), returns
`true`, and sets the value's address to `firstRecordAddress - 5 =
beginIndex + 3 - 5` in 16-bit wraparound arithmetic — an address before
the first record whenever `beginIndex ≥ 2`; `add` consequently returns
`true` as well, without touching the store. -/
theorem C9_zero_value_find (fuel : Nat) (ps : PState) (v : PValue)
    (hinit : ps.nextPvAddress ≠ 0)
    (hid : v.id = [0, 0, 0]) (hsz : v.bufferSize = 0)
    (hwin : ps.beginIndex + 3 < ps.endIndex) (hb : ps.beginIndex + 3 < 65536) :
    findMatch ps v.id v.bufferSize (fuel + 1) (addr (ps.beginIndex + 3)) [0, 0, 0] 0 =
      some (addr (ps.beginIndex + 3)) ∧
    find (fuel + 1) ps v =
      (true, {v with address := (ps.beginIndex + 65534) % 65536}) ∧
    add (fuel + 1) ps v =
      (ps, {v with address := (ps.beginIndex + 65534) % 65536}, true) ∧
    (2 ≤ ps.beginIndex →
      (ps.beginIndex + 65534) % 65536 = ps.beginIndex - 2 ∧
      (ps.beginIndex + 65534) % 65536 < ps.beginIndex + 3) := by
  have haddr : addr (ps.beginIndex + 3) = ps.beginIndex + 3 := Nat.mod_eq_of_lt hb
  have hfm : findMatch ps v.id v.bufferSize (fuel + 1)
      (addr (ps.beginIndex + 3)) [0, 0, 0] 0 = some (addr (ps.beginIndex + 3)) := by
    simp [findMatch, hid, hsz]
  have hrb : readBytes ps (addr (ps.beginIndex + 3)) v.bufferSize = some [] := by
    rw [haddr, hsz]
    unfold readBytes
    rw [if_pos (by simp [indexCheck]; omega)]
    simp
  have hsub : subWrap (addr (ps.beginIndex + 3)) 5 =
      (ps.beginIndex + 65534) % 65536 := by
    rw [haddr]
    unfold subWrap
    omega
  have hfind : find (fuel + 1) ps v =
      (true, {v with address := (ps.beginIndex + 65534) % 65536}) := by
    simp [find, hinit, hfm, hrb, hsub]
  refine ⟨hfm, hfind, ?_, ?_⟩
  · simp [add, hinit, hfind]
  · intro h2
    omega

/-- C9 witness: the zero-id/size-0 value against the initialized store
`ps9`. -/
theorem C9_zero_value_find_witness :
    (ps9.nextPvAddress ≠ 0 ∧ v9.id = [0, 0, 0] ∧ v9.bufferSize = 0 ∧
     ps9.beginIndex + 3 < ps9.endIndex ∧ ps9.beginIndex + 3 < 65536) ∧
    (findMatch ps9 v9.id v9.bufferSize 5 (addr (ps9.beginIndex + 3)) [0, 0, 0] 0 =
       some (addr (ps9.beginIndex + 3)) ∧
     find 5 ps9 v9 = (true, {v9 with address := (ps9.beginIndex + 65534) % 65536}) ∧
     add 5 ps9 v9 = (ps9, {v9 with address := (ps9.beginIndex + 65534) % 65536}, true) ∧
     (2 ≤ ps9.beginIndex →
       (ps9.beginIndex + 65534) % 65536 = ps9.beginIndex - 2 ∧
       (ps9.beginIndex + 65534) % 65536 < ps9.beginIndex + 3)) :=
  ⟨⟨by decide, by decide, by decide, by decide, by decide⟩,
   C9_zero_value_find 4 ps9 v9 (by decide) (by decide) (by decide) (by decide)
     (by decide)⟩

/-- C10: when the scan finds a record matching the value's id and size at
(post-header) position `index` but the read of the record's value bytes
fails, `find` returns `false` with the value's address already updated to
the matched record's address `index - 5` (16-bit wraparound), so the
value reports `isStored() == true` whenever that address is non-zero:
failure is not atomic. -/
theorem C10_partial_find_mutation (fuel : Nat) (ps : PState) (v : PValue)
    (index : Nat)
    (hinit : ps.nextPvAddress ≠ 0)
    (hmatch : findMatch ps v.id v.bufferSize fuel
        (addr (ps.beginIndex + 3)) [0, 0, 0] 0 = some index)
    (hread : readBytes ps index v.bufferSize = none) :
    find fuel ps v = (false, {v with address := subWrap index 5}) ∧
    (subWrap index 5 ≠ 0 →
      isStored {v with address := subWrap index 5} = true) := by
  refine ⟨by simp [find, hinit, hmatch, hread], fun h => by simp [isStored, h]⟩

/-- C10 witness: the corrupt store `ps10`, whose record `"AAA"` claims
size 100 running past the window; the match succeeds at position 8 but
the value read fails, leaving address 3 set. -/
theorem C10_partial_find_mutation_witness :
    (ps10.nextPvAddress ≠ 0 ∧
     findMatch ps10 v10.id v10.bufferSize 5
       (addr (ps10.beginIndex + 3)) [0, 0, 0] 0 = some 8 ∧
     readBytes ps10 8 v10.bufferSize = none) ∧
    (find 5 ps10 v10 = (false, {v10 with address := subWrap 8 5}) ∧
     (subWrap 8 5 ≠ 0 →
       isStored {v10 with address := subWrap 8 5} = true)) :=
  ⟨⟨by decide, by decide, by decide⟩,
   C10_partial_find_mutation 5 ps10 v10 8 (by decide) (by decide) (by decide)⟩

/-- C1: compaction law on the store `ps0` holding records {A, B, C}.
With declared set [A, C] and `removeUnused = true`, after initialization
the device contains exactly the records A and C, contiguously after the
header in declaration order (addresses 3 and 10, footer immediately
after at 17), and a subsequent `find` on a value matching B fails.  With
`removeUnused = false` and declared set [A, C, D] (D absent from the
device), A, B and C all remain findable and D is appended after the last
stored record (address 24, where the footer used to sit). -/
theorem C1_compaction_law :
    load 50 (beginRecon 50 ps0 [vA0, vC0] true).1 =
      some [⟨idA, 3, 2, [1, 2]⟩, ⟨idC, 10, 2, [5, 6]⟩] ∧
    readBytes (beginRecon 50 ps0 [vA0, vC0] true).1 17 3 = some c_FooterId ∧
    (find 50 (beginRecon 50 ps0 [vA0, vC0] true).1 vB0).1 = false ∧
    load 50 (beginRecon 50 ps0 [vA0, vC0, vD0] false).1 =
      some [⟨idA, 3, 2, [1, 2]⟩, ⟨idB, 10, 2, [3, 4]⟩,
            ⟨idC, 17, 2, [5, 6]⟩, ⟨idD, 24, 2, [7, 8]⟩] ∧
    (find 50 (beginRecon 50 ps0 [vA0, vC0, vD0] false).1 vA0).1 = true ∧
    (find 50 (beginRecon 50 ps0 [vA0, vC0, vD0] false).1 vB0).1 = true ∧
    (find 50 (beginRecon 50 ps0 [vA0, vC0, vD0] false).1 vC0).1 = true ∧
    (find 50 (beginRecon 50 ps0 [vA0, vC0, vD0] false).1 vD0).1 = true := by
  decide

/-- C2: the reconciling initializer does NOT return the pre-reconciliation
stored count.  On the store `ps0` holding 3 records {A, B, C}, the bare
`begin()` reports 3 stored records, yet `begin([A, C], removeUnused =
false)` returns 2 — the number of declared values — contradicting both
the claim and the function's own documentation ("Return the persistent
state stored values count"). -/
theorem C2_recon_return_value :
    (beginRecon 50 ps0 [vA0, vC0] false).2.2 = some 2 ∧
    (beginBare 50 ps0).2 = some 3 ∧
    (some 2 : Option Nat) ≠ some 3 := by decide

/-- C7 (counterexample): on the device `dev7` the scan reads the record
`"AAA"` of size 1 (ending at address 9) and then the next identifier read
at address 9 fails its bounds check (`9 + 3 = 12` is not `< 12`); the
claim demands the failure sentinel `-1`, but `begin()` returns the count
1 accumulated so far. -/
theorem C7_scan_failure_counterexample :
    (beginBare 50 ps7).2 = some 1 ∧
    readNext ps7 3 = some (8, idA, 1) ∧
    (beginBare 50 ps7).1.nextPvAddress = 9 ∧
    readBytes ps7 9 3 = none := by decide

/-- C7 (amended): the bare `begin()` returns the failure sentinel `-1`
(`none`) iff the initial header read fails, or the header is absent and
writing the header or the footer fails; otherwise it returns the count of
non-Footer records consumed by the forward scan before it stops — whether
the scan stops at the Footer or at a failed read step. -/
theorem C7_begin_return (fuel : Nat) (ps0 : PState) :
    ((beginBare fuel ps0).2 = none ↔
       readBytes {ps0 with nextPvAddress := 0} ps0.beginIndex 3 = none ∨
       (∃ id, readBytes {ps0 with nextPvAddress := 0} ps0.beginIndex 3 = some id ∧
          id ≠ c_HeaderId ∧
          ((updateBytes {ps0 with nextPvAddress := 0} ps0.beginIndex c_HeaderId).2.1 = false ∨
           (updateBytes (updateBytes {ps0 with nextPvAddress := 0} ps0.beginIndex c_HeaderId).1
              (addr (ps0.beginIndex + 3)) c_FooterId).2.1 = false))) ∧
    (readBytes {ps0 with nextPvAddress := 0} ps0.beginIndex 3 = some c_HeaderId →
       (beginBare fuel ps0).2 =
         some (scanAux {ps0 with nextPvAddress := 0} fuel
                 (addr (ps0.beginIndex + 3)) 0).2) := by
  constructor
  · cases h1 : readBytes {ps0 with nextPvAddress := 0} ps0.beginIndex 3 with
    | none => simp [beginBare, h1]
    | some id =>
      by_cases h2 : id = c_HeaderId
      · subst h2
        simp [beginBare, h1, finishBegin]
      · cases h3 : (updateBytes {ps0 with nextPvAddress := 0} ps0.beginIndex
            c_HeaderId).2.1 with
        | false => simp [beginBare, h1, h2, h3]
        | true =>
          cases h4 : (updateBytes
              (updateBytes {ps0 with nextPvAddress := 0} ps0.beginIndex c_HeaderId).1
              (addr (ps0.beginIndex + 3)) c_FooterId).2.1 with
          | false =>
            simp [beginBare, h1, h2, h3, updateBytes_beginIndex, h4]
          | true =>
            simp [beginBare, h1, h2, h3, updateBytes_beginIndex, h4, finishBegin]
  · intro h
    simp [beginBare, h, finishBegin]

/-- C7 witness: the amended theorem's positive path applied to the
already-initialized device `dev0`. -/
theorem C7_begin_return_witness :
    readBytes {ps0 with nextPvAddress := 0} ps0.beginIndex 3 = some c_HeaderId ∧
    (beginBare 50 ps0).2 =
      some (scanAux {ps0 with nextPvAddress := 0} 50 (addr (ps0.beginIndex + 3)) 0).2 :=
  ⟨by decide, (C7_begin_return 50 ps0).2 (by decide)⟩

/-- C8 (counterexample): over a 1024-byte device, configuring the window
`[10, 15)` (fewer than 12 bytes) makes the constructor reset to the fixed
window `[0, 12)` — not to the full device window `[0, 1024)` as the
claim states. -/
theorem C8_window_counterexample :
    mkWindow (some 10) (some 15) 1024 = (0, 12) ∧
    mkWindow (some 10) (some 15) 1024 ≠ (0, 1024) := by decide

/-- C8 (amended): at construction, if the (device-clamped) address window
has fewer than `c_MinSize = 12` bytes, the engine resets its window to
the fixed minimal window `[0, c_MinSize)` (not the full device window);
in every case the resulting window spans at least `c_MinSize` bytes. -/
theorem C8_window_reset (bIdx eIdx : Option Nat) (len : Nat)
    (h : (if len < eIdx.getD len then len else eIdx.getD len) -
         (if len ≤ bIdx.getD 0 then 0 else bIdx.getD 0) < c_MinSize) :
    mkWindow bIdx eIdx len = (0, c_MinSize) ∧
    (∀ b e l, c_MinSize ≤ (mkWindow b e l).2 - (mkWindow b e l).1) := by
  refine ⟨?_, ?_⟩
  · simp only [mkWindow]
    rw [if_pos h]
  · intro b e l
    simp only [mkWindow, c_MinSize]
    by_cases hc :
        (if l < e.getD l then l else e.getD l) -
        (if l ≤ b.getD 0 then 0 else b.getD 0) < 12
    · rw [if_pos hc]
      decide
    · rw [if_neg hc]
      omega

/-- C5: within bounds, `updateBytes_` issues a physical device write at
an offset only if the byte already stored there differs from the byte
being written (the number of physical writes equals the number of
differing offsets); and calling `setValue` a second time with the same
encoded bytes performs zero additional physical writes and leaves the
device and the value untouched. -/
theorem C5_write_skip (ps : PState) (index : Nat) (bytes : List Nat)
    (v : PValue) (wbytes : List Nat)
    (hchk : indexCheck ps index bytes.length = true) :
    (updateBytes ps index bytes).2.2 = countDiff ps.device index bytes ∧
    setValue (setValue ps v wbytes).1 (setValue ps v wbytes).2.1 wbytes =
      ((setValue ps v wbytes).1, (setValue ps v wbytes).2.1, true, 0) := by
  constructor
  · simp only [updateBytes, if_pos hchk]
    rw [updAux_count ps.device bytes ps.device index 0 (fun j _ => rfl)]
    omega
  · by_cases heq : mem v.buffer v.bufferSize = mem wbytes v.bufferSize
    · simp [setValue, heq]
    · simp [setValue, heq, mem_append_left]

/-- C5 witness: one physical write when a differing byte is stored, and
zero on the repeated `setValue` (record A of `ps9` rewritten to `[1, 7]`). -/
theorem C5_write_skip_witness :
    indexCheck ps9 8 ([1, 7] : List Nat).length = true ∧
    ((updateBytes ps9 8 [1, 7]).2.2 = countDiff ps9.device 8 [1, 7] ∧
     setValue (setValue ps9 ⟨idA, 3, 2, [1, 2]⟩ [1, 7]).1
         (setValue ps9 ⟨idA, 3, 2, [1, 2]⟩ [1, 7]).2.1 [1, 7] =
       ((setValue ps9 ⟨idA, 3, 2, [1, 2]⟩ [1, 7]).1,
        (setValue ps9 ⟨idA, 3, 2, [1, 2]⟩ [1, 7]).2.1, true, 0)) :=
  ⟨by decide, C5_write_skip ps9 8 [1, 7] ⟨idA, 3, 2, [1, 2]⟩ [1, 7] (by decide)⟩

/-- C6: for a bounded text value with `maxTextLen = N` (buffer size
`N + 1`, last buffer byte a terminator), `setValue(s)` stores
`min(N, len(s))` characters of `s` followed by a NUL terminator (the
stored C string is `s.take (min N s.length)` and the terminator invariant
at position `N` is preserved), `getValue()` never yields more than `N`
characters, and `equals(nullptr)` holds iff the stored buffer's first
byte is the terminator. -/
theorem C6_text_truncation (ps : PState) (v : PValue) (N : Nat) (s : List Nat)
    (hbs : v.bufferSize = N + 1)
    (hlen : v.buffer.length = N + 1)
    (hterm : v.buffer.getD N 0 = 0)
    (hs : ∀ b ∈ s, b ≠ 0) :
    cstr ((strSetValue ps v (some s)).2.1).buffer = s.take (min N s.length) ∧
    (cstr ((strSetValue ps v (some s)).2.1).buffer).length ≤ N ∧
    ((strSetValue ps v (some s)).2.1).buffer.getD N 0 = 0 ∧
    (∀ buf : List Nat, strEquals buf none = true ↔ buf.getD 0 0 = 0) := by
  have hequiv : ∀ buf : List Nat, strEquals buf none = true ↔ buf.getD 0 0 = 0 := by
    intro buf; simp [strEquals]
  by_cases hueq : strEquals v.buffer (some s) = true
  · have hcs : cstr v.buffer = s := by simpa [strEquals] using hueq
    have hsl : s.length ≤ N := by
      have hle := cstr_length_le v.buffer N hterm
      rw [hcs] at hle; exact hle
    have hmin : min N s.length = s.length := Nat.min_eq_right hsl
    have hv1 : (strSetValue ps v (some s)).2.1 = v := by
      simp [strSetValue, hueq]
    refine ⟨?_, ?_, ?_, hequiv⟩
    · rw [hv1, hcs, hmin, List.take_length]
    · rw [hv1, hcs]; exact hsl
    · rw [hv1]; exact hterm
  · have hv1 : ((strSetValue ps v (some s)).2.1).buffer =
        (s ++ [0]).take (min N (s.length + 1)) ++
          v.buffer.drop (min N (s.length + 1)) := by
      simp [strSetValue, hueq, strSetMem, hbs]
    by_cases hNs : N ≤ s.length
    · have hvv : min N (s.length + 1) = N := Nat.min_eq_left (by omega)
      have htake : (s ++ [0]).take N = s.take N :=
        List.take_append_of_le_length hNs
      have hdrop : v.buffer.drop N = [0] := by
        rw [drop_eq_single v.buffer N hlen, hterm]
      have hbuf : ((strSetValue ps v (some s)).2.1).buffer =
          s.take N ++ 0 :: [] := by
        rw [hv1, hvv, htake, hdrop]
      have hcstr : cstr (s.take N ++ 0 :: []) = s.take N :=
        cstr_append_zero _ _ (fun x hx => hs x (List.take_subset N s hx))
      have hminN : min N s.length = N := Nat.min_eq_left hNs
      have hlt : (s.take N).length = N := by
        simp [List.length_take]
        omega
      refine ⟨?_, ?_, ?_, hequiv⟩
      · rw [hbuf, hcstr, hminN]
      · rw [hbuf, hcstr]; omega
      · rw [hbuf, List.getD_append_right _ _ _ _ (by omega)]
        simp [hlt]
    · push_neg at hNs
      have hvv : min N (s.length + 1) = s.length + 1 := Nat.min_eq_right (by omega)
      have htake : (s ++ [0]).take (s.length + 1) = s ++ [0] := by
        have hl : (s ++ [0]).length = s.length + 1 := by simp
        rw [← hl, List.take_length]
      have hbuf : ((strSetValue ps v (some s)).2.1).buffer =
          s ++ 0 :: v.buffer.drop (s.length + 1) := by
        rw [hv1, hvv, htake, List.append_assoc, List.singleton_append]
      have hcstr : cstr (s ++ 0 :: v.buffer.drop (s.length + 1)) = s :=
        cstr_append_zero _ _ hs
      have hminS : min N s.length = s.length := Nat.min_eq_right (by omega)
      refine ⟨?_, ?_, ?_, hequiv⟩
      · rw [hbuf, hcstr, hminS, List.take_length]
      · rw [hbuf, hcstr]; omega
      · rw [hbuf, List.getD_append_right _ _ _ _ (by omega)]
        obtain ⟨m, hm⟩ : ∃ m, N - s.length = m + 1 := ⟨N - s.length - 1, by omega⟩
        rw [hm, List.getD_cons_succ]
        have hdg : (v.buffer.drop (s.length + 1)).getD m 0 =
            v.buffer.getD (s.length + 1 + m) 0 := by
          simp [List.getD_eq_getElem?_getD, List.getElem?_drop]
        rw [hdg]
        have hNm : s.length + 1 + m = N := by omega
        rw [hNm]; exact hterm

/-- C6 witness: maxTextLen 4, stored `"Bob"`, `setValue("Alexandra")`
stores `"Alex"` plus terminator. -/
theorem C6_text_truncation_witness :
    (vBob.bufferSize = 4 + 1 ∧
     vBob.buffer.length = 4 + 1 ∧
     vBob.buffer.getD 4 0 = 0 ∧
     (∀ b ∈ sAlexandra, b ≠ 0)) ∧
    (cstr ((strSetValue ps9 vBob (some sAlexandra)).2.1).buffer =
       sAlexandra.take (min 4 sAlexandra.length) ∧
     (cstr ((strSetValue ps9 vBob (some sAlexandra)).2.1).buffer).length ≤ 4 ∧
     ((strSetValue ps9 vBob (some sAlexandra)).2.1).buffer.getD 4 0 = 0 ∧
     (∀ buf : List Nat, strEquals buf none = true ↔ buf.getD 0 0 = 0)) :=
  ⟨⟨by decide, by decide, by decide, by decide⟩,
   C6_text_truncation ps9 vBob 4 sAlexandra (by decide) (by decide) (by decide)
     (by decide)⟩

/-- C8 witness: the amended theorem applied to the configured window
`[10, 15)` over a 1024-byte device. -/
theorem C8_window_reset_witness :
    ((if 1024 < (some 15 : Option Nat).getD 1024 then 1024
      else (some 15 : Option Nat).getD 1024) -
     (if 1024 ≤ (some 10 : Option Nat).getD 0 then 0
      else (some 10 : Option Nat).getD 0) < c_MinSize) ∧
    (mkWindow (some 10) (some 15) 1024 = (0, c_MinSize) ∧
     (∀ b e l, c_MinSize ≤ (mkWindow b e l).2 - (mkWindow b e l).1)) :=
  ⟨by decide, C8_window_reset (some 10) (some 15) 1024 (by decide)⟩
